import Mathlib

/-!
Verification of `pyproject_toml_to_environment_file.py`, a small tool that
reads dependency groups from a parsed `pyproject.toml` manifest and writes one
environment-yaml record per group.

The embedding models the parsed TOML document as a nested association list
(Python dicts preserve insertion order and have unique keys), the filesystem
as an explicit state record (known directories, written files, console
output), and every Python `ValueError` as an `Except.error` carrying the
message string.  File contents are modelled at the record level: the yaml
serialization performed by the `yaml` library is deterministic and invertible
for the fixed two-field record shape, so a written file is represented by the
record it would parse back to.
-/

/-- A parsed TOML value, restricted to the shapes the tool manipulates:
strings, arrays of strings (dependency lists), and tables. -/
inductive Value where
  | vstr : String → Value
  | vstrs : List String → Value
  | vtable : List (String × Value) → Value

/-- A parsed TOML table: insertion-ordered association list with the
semantics of a Python dict (first binding wins on lookup; parsed dicts have
unique keys). -/
abbrev Dict := List (String × Value)

/-- Python `d[k]` / `k in d`: first binding for `k`, if any. -/
def lookupStr {α : Type} : List (String × α) → String → Option α
  | [], _ => none
  | (k, v) :: rest, key => if k == key then some v else lookupStr rest key

/-- Python substring test `sub in s`. -/
def strContains (s sub : String) : Bool := decide (sub.data <:+: s.data)

/-- Embedding of `_load_dependencies(toml_project_dict, dep_type)`
(src/pyproject_toml_to_environment_file.py lines 47-88).

Mirrors the source line by line: pick the sub-table name, fail when it is
absent (the message keeps the literal un-interpolated `\x7bdep_table\x7d`
placeholder found in the source — that Python string lacks the `f` marker),
then return the required list or look the group up inside
`optional-dependencies` (failing with the literal message `"Something."`).
When `optional-dependencies` holds a non-table value, the Python test
`dep_type not in sub_dep_table` does a substring / membership test and the
subsequent indexing raises `TypeError`; both dynamic outcomes are errors and
are modelled as such. -/
def load_dependencies (toml_project_dict : Dict) (dep_type : String) :
    Except String Value :=
  let dep_table := if dep_type == "dependencies" then "dependencies"
    else "optional-dependencies"
  match lookupStr toml_project_dict dep_table with
  | none => .error
      "pyproject.toml\x27s project table does not include \x7bdep_table\x7d sub-table."
  | some v =>
    if dep_type == "dependencies" then
      -- `toml_project_dict[dep_type]`: here `dep_type = dep_table`, so this is `v`.
      .ok v
    else
      match v with
      | .vtable sub_dep_table =>
        match lookupStr sub_dep_table dep_type with
        | none => .error "Something."
        | some deps => .ok deps
      | .vstrs l =>
        if l.contains dep_type then
          .error "TypeError: list indices must be integers"
        else .error "Something."
      | .vstr s =>
        if strContains s dep_type then
          .error "TypeError: string indices must be integers"
        else .error "Something."

/-- The `\x7bname, dependencies\x7d` record serialized to each output file. -/
structure DepYaml where
  name : String
  dependencies : Value

/-- Filesystem and console state threaded through the writer: directories
known to exist, files on disk keyed by path (content modelled as the record
the file parses back to), and the verbose status lines printed so far (each
modelled as the output path and record it names). -/
structure WriteState where
  dirs : List String
  files : List (String × DepYaml)
  output : List (String × DepYaml)

/-- Test from the source, `endswith("\\") or endswith("/")`, via the last
character. -/
def endsWithSep (s : String) : Bool :=
  match s.data.getLast? with
  | some c => c == '/' || c == '\\'
  | none => false

/-- Path normalization shared by writer and orchestrator: append `/` unless
the path already ends in a separator. -/
def normPath (p : String) : String :=
  if endsWithSep p then p else p ++ "/"

/-- Overwriting file write: replace every binding at `path`, or append a new
one. -/
def setFile (files : List (String × DepYaml)) (path : String) (rec : DepYaml) :
    List (String × DepYaml) :=
  if (lookupStr files path).isSome then
    files.map (fun e => if e.fst == path then (path, rec) else e)
  else files ++ [(path, rec)]

/-- Embedding of `_write_dependencies(deps, output_path, verbose)`
(src/pyproject_toml_to_environment_file.py lines 91-129).

Normalizes the path, creates the output directory when absent (`os.makedirs`
is modelled as registering the normalized path; recursive creation of parents
is an OS detail below this model), raises on an empty dependency dict, then
writes the record for the FIRST key only and, when verbose, prints one status
line.  The raised error leaves the already-updated state in place, matching
the Python side effects performed before the `raise`. -/
def write_dependencies (deps : List (String × Value)) (output_path : String)
    (verbose : Bool) (st : WriteState) : WriteState × Except String DepYaml :=
  let output_path := normPath output_path
  let st := if st.dirs.contains output_path then st
    else { st with dirs := output_path :: st.dirs }
  match deps with
  | [] => (st, .error "Empty dependency dictionary found.")
  | hd :: _ =>
    -- `dep_name = [*deps.keys()][0]`; `deps[dep_name]` is the dict lookup of
    -- the first key, which yields the value of the first binding.
    let dep_name := hd.fst
    let dep_yaml : DepYaml := { name := dep_name, dependencies := hd.snd }
    let path := output_path ++ dep_name ++ ".yaml"
    let st := { st with files := setFile st.files path dep_yaml }
    let st := if verbose then { st with output := st.output ++ [(path, dep_yaml)] }
      else st
    (st, .ok dep_yaml)

/-- The manifest verification inlined in the orchestrator
(src/pyproject_toml_to_environment_file.py lines 171-179): the parsed
document must hold a `project` key whose value is a dict.  The second
message in the source interpolates `type(project)`; the type name is not
load-bearing and is abstracted away here. -/
def verifyProject (toml_dict : Dict) : Except String Dict :=
  match lookupStr toml_dict "project" with
  | none => .error "Expected pyproject.toml to include a project table."
  | some (.vtable project) => .ok project
  | some _ => .error
      "Expected pyproject.toml\x27s project table to return dict, but found another type."

/-- The `for optional_dep in project[\x22optional-dependencies\x22].keys()` loop
of the orchestrator (src/pyproject_toml_to_environment_file.py lines
187-190): for each key, reload that group through `load_dependencies` and
write it as a singleton dict, with `verbose` left at its `False` default.
The first raised error aborts the remaining iterations, keeping the side
effects of the earlier ones. -/
def writeOptionals (project : Dict) (keys : List String) (output_path : String)
    (st : WriteState) : WriteState × Except String Unit :=
  match keys with
  | [] => (st, .ok ())
  | optional_dep :: rest =>
    match load_dependencies project optional_dep with
    | .error e => (st, .error e)
    | .ok deps =>
      match write_dependencies [(optional_dep, deps)] output_path false st with
      | (st, .error e) => (st, .error e)
      | (st, .ok _) => writeOptionals project rest output_path st

/-- Embedding of `pyproject_toml_to_environment_file(input_path, output_path,
dep_type, verbose)` (src/pyproject_toml_to_environment_file.py lines
132-195).  Reading and TOML-parsing `<input_path>/pyproject.toml` is the
work of the `tomli` library, so the model takes the parsed document `toml_dict`
directly (the `input_path` normalization only feeds that read and is dropped
with it).  After verifying the `project` table the behavior branches on
`dep_type`: `"all"` writes the required list (verbosely, when asked) and then
every optional group (never verbosely); any other value extracts and writes
the single group named `dep_type`. -/
def pyproject_toml_to_environment_file (toml_dict : Dict) (output_path : String)
    (dep_type : String) (verbose : Bool) (st : WriteState) :
    WriteState × Except String Unit :=
  let output_path := normPath output_path
  match verifyProject toml_dict with
  | .error e => (st, .error e)
  | .ok project =>
    if dep_type == "all" then
      let step1 : WriteState × Except String Unit :=
        if (lookupStr project "dependencies").isSome then
          match load_dependencies project "dependencies" with
          | .error e => (st, .error e)
          | .ok deps =>
            match write_dependencies [("dependencies", deps)] output_path verbose st with
            | (st, .error e) => (st, .error e)
            | (st, .ok _) => (st, .ok ())
        else (st, .ok ())
      match step1 with
      | (st, .error e) => (st, .error e)
      | (st, .ok ()) =>
        match lookupStr project "optional-dependencies" with
        | none => (st, .ok ())
        | some (.vtable sub) =>
          writeOptionals project (sub.map Prod.fst) output_path st
        | some _ =>
          -- `project["optional-dependencies"].keys()` on a non-dict raises.
          (st, .error "AttributeError: keys")
    else
      match load_dependencies project dep_type with
      | .error e => (st, .error e)
      | .ok deps =>
        match write_dependencies [(dep_type, deps)] output_path verbose st with
        | (st, .error e) => (st, .error e)
        | (st, .ok _) => (st, .ok ())

/-- The path of the output file for group `g`: normalized output path,
group name, `.yaml`, exactly as concatenated by `write_dependencies`. -/
def filePath (output_path g : String) : String :=
  normPath output_path ++ g ++ ".yaml"

/-- Modelled from the spec (sections 4.3 and 8): the output files an
`all`-mode run is described to produce — one per dependency group present in
the project table, named after the group and holding the record of that
group, required list first, then the optional groups in stored order. -/
def specAllFiles (project : Dict) (output_path : String) :
    List (String × DepYaml) :=
  (match lookupStr project "dependencies" with
   | some v => [(filePath output_path "dependencies", ⟨"dependencies", v⟩)]
   | none => []) ++
  (match lookupStr project "optional-dependencies" with
   | some (.vtable sub) =>
      sub.map (fun e => (filePath output_path e.fst, ⟨e.fst, e.snd⟩))
   | _ => [])

lemma filePath_inj {p a b : String} (h : filePath p a = filePath p b) :
    a = b := by
  have hd := congrArg String.data h
  simp only [filePath, String.data_append, List.append_assoc] at hd
  exact String.ext (List.append_cancel_right (List.append_cancel_left hd))

lemma lookupStr_append_of_none {α : Type} {l₁ : List (String × α)}
    (l₂ : List (String × α)) {k : String} (h : lookupStr l₁ k = none) :
    lookupStr (l₁ ++ l₂) k = lookupStr l₂ k := by
  induction l₁ with
  | nil => rfl
  | cons hd tl ih =>
    obtain ⟨a, b⟩ := hd
    cases hk : a == k with
    | true => simp [lookupStr, hk] at h
    | false =>
      simp only [lookupStr, hk] at h
      simpa only [List.cons_append, lookupStr, hk] using ih (by simpa using h)

lemma lookupStr_replace_of_isSome {files : List (String × DepYaml)}
    {p : String} (r : DepYaml) (h : (lookupStr files p).isSome = true) :
    lookupStr (files.map (fun e => if e.fst == p then (p, r) else e)) p
      = some r := by
  induction files with
  | nil => simp [lookupStr] at h
  | cons hd tl ih =>
    obtain ⟨a, b⟩ := hd
    cases hk : a == p with
    | true =>
      have hhead : (if ((a, b).fst == p) = true then (p, r) else (a, b))
          = (p, r) := if_pos hk
      rw [List.map_cons, hhead]
      simp [lookupStr]
    | false =>
      simp only [lookupStr, hk] at h
      have hhead : (if ((a, b).fst == p) = true then (p, r) else (a, b))
          = (a, b) := if_neg (by simp [hk])
      rw [List.map_cons, hhead]
      simp only [lookupStr, hk, Bool.false_eq_true, if_false]
      exact ih (by simpa using h)

lemma map_replace_of_none {files : List (String × DepYaml)} {p : String}
    (r : DepYaml) (h : lookupStr files p = none) :
    files.map (fun e => if e.fst == p then (p, r) else e) = files := by
  induction files with
  | nil => rfl
  | cons hd tl ih =>
    obtain ⟨a, b⟩ := hd
    cases hk : a == p with
    | true => simp [lookupStr, hk] at h
    | false =>
      simp only [lookupStr, hk] at h
      simp only [List.map_cons, hk]
      simp only [Bool.false_eq_true, if_false]
      rw [ih (by simpa using h)]

lemma lookupStr_setFile_self (files : List (String × DepYaml)) (p : String)
    (r : DepYaml) : lookupStr (setFile files p r) p = some r := by
  unfold setFile
  by_cases h : (lookupStr files p).isSome = true
  · simp only [h, if_pos]
    exact lookupStr_replace_of_isSome r h
  · have hn : lookupStr files p = none := by
      cases hl : lookupStr files p with
      | none => rfl
      | some v => simp [hl] at h
    simp only [h, if_neg, Bool.false_eq_true, not_false_eq_true]
    rw [lookupStr_append_of_none _ hn]
    simp [lookupStr]

lemma replace_twice (p : String) (r : DepYaml)
    (l : List (String × DepYaml)) :
    (l.map (fun e => if e.fst == p then (p, r) else e)).map
        (fun e => if e.fst == p then (p, r) else e)
      = l.map (fun e => if e.fst == p then (p, r) else e) := by
  induction l with
  | nil => rfl
  | cons hd tl ih =>
    obtain ⟨a, b⟩ := hd
    cases he : a == p with
    | true =>
      have h1 : (if ((a, b).fst == p) = true then ((p, r) : String × DepYaml)
          else (a, b)) = (p, r) := if_pos he
      have h2 : (if ((p, r).fst == p) = true then ((p, r) : String × DepYaml)
          else (p, r)) = (p, r) := if_pos (beq_self_eq_true p)
      simp only [List.map_cons, h1, h2, ih]
    | false =>
      have h1 : (if ((a, b).fst == p) = true then ((p, r) : String × DepYaml)
          else (a, b)) = (a, b) := if_neg (by simp [he])
      simp only [List.map_cons, h1, ih]

lemma setFile_idem (files : List (String × DepYaml)) (p : String)
    (r : DepYaml) : setFile (setFile files p r) p r = setFile files p r := by
  by_cases h : (lookupStr files p).isSome = true
  · have h1 : setFile files p r
        = files.map (fun e => if e.fst == p then (p, r) else e) := by
      unfold setFile; rw [if_pos h]
    have h2 : (lookupStr
        (files.map (fun e => if e.fst == p then (p, r) else e)) p).isSome
          = true := by
      rw [lookupStr_replace_of_isSome r h]; rfl
    rw [h1]
    unfold setFile
    rw [if_pos h2]
    exact replace_twice p r files
  · have hn : lookupStr files p = none := by
      cases hl : lookupStr files p with
      | none => rfl
      | some v => simp [hl] at h
    have h1 : setFile files p r = files ++ [(p, r)] := by
      unfold setFile; rw [if_neg h]
    rw [h1]
    unfold setFile
    have h2 : (lookupStr (files ++ [(p, r)]) p).isSome = true := by
      rw [lookupStr_append_of_none _ hn]; simp [lookupStr]
    rw [if_pos h2, List.map_append, map_replace_of_none r hn]
    congr 1
    simp

lemma write_dependencies_nil (outp : String) (vb : Bool) (st : WriteState) :
    write_dependencies [] outp vb st =
      ({ st with dirs := if st.dirs.contains (normPath outp) then st.dirs
          else normPath outp :: st.dirs },
       .error "Empty dependency dictionary found.") := by
  cases hc : st.dirs.contains (normPath outp)
  case false =>
    have hm : ¬ normPath outp ∈ st.dirs := by simpa using hc
    simp [write_dependencies, hc, hm]
  case true =>
    have hm : normPath outp ∈ st.dirs := by simpa using hc
    simp [write_dependencies, hc, hm]

lemma write_dependencies_cons (g : String) (v : Value)
    (rest : List (String × Value)) (outp : String) (vb : Bool)
    (st : WriteState) :
    write_dependencies ((g, v) :: rest) outp vb st =
      ({ dirs := if st.dirs.contains (normPath outp) then st.dirs
           else normPath outp :: st.dirs,
         files := setFile st.files (filePath outp g) ⟨g, v⟩,
         output := if vb then st.output ++ [(filePath outp g, ⟨g, v⟩)]
           else st.output },
       .ok ⟨g, v⟩) := by
  cases hc : st.dirs.contains (normPath outp)
  case false =>
    have hm : ¬ normPath outp ∈ st.dirs := by simpa using hc
    cases vb <;> simp [write_dependencies, filePath, hc, hm]
  case true =>
    have hm : normPath outp ∈ st.dirs := by simpa using hc
    cases vb <;> simp [write_dependencies, filePath, hc, hm]

lemma load_dependencies_req {project : Dict} {v : Value}
    (h : lookupStr project "dependencies" = some v) :
    load_dependencies project "dependencies" = .ok v := by
  unfold load_dependencies
  simp [h]

lemma load_dependencies_opt {project sub : Dict} {g : String} {v : Value}
    (hg : (g == "dependencies") = false)
    (hsub : lookupStr project "optional-dependencies" = some (.vtable sub))
    (hv : lookupStr sub g = some v) :
    load_dependencies project g = .ok v := by
  unfold load_dependencies
  simp [hg, hsub, hv]

lemma verifyProject_ok {toml_dict project : Dict}
    (h : lookupStr toml_dict "project" = some (.vtable project)) :
    verifyProject toml_dict = .ok project := by
  unfold verifyProject
  rw [h]

/-- C3: round-trip — writing group `g` with dependency list `L` succeeds,
returns the record with name `g` and dependencies `L`, and the produced
output file at `filePath outp g` parses back to exactly that record. -/
theorem write_then_read_roundtrip (g : String) (L : List String)
    (outp : String) (vb : Bool) (st : WriteState) :
    (write_dependencies [(g, Value.vstrs L)] outp vb st).2
      = .ok ⟨g, Value.vstrs L⟩ ∧
    lookupStr (write_dependencies [(g, Value.vstrs L)] outp vb st).1.files
        (filePath outp g) = some ⟨g, Value.vstrs L⟩ := by
  rw [write_dependencies_cons]
  exact ⟨rfl, lookupStr_setFile_self _ _ _⟩

/-- C4 (code evaluation): requesting optional group `"test"` when the
`optional-dependencies` sub-table exists but lacks that key raises the
literal, uninformative message `"Something."` rather than one saying the
requested optional group was not found. -/
theorem missing_optional_group_error_eval :
    load_dependencies
        [("optional-dependencies",
          Value.vtable [("docs", Value.vstrs ["sphinx"])])]
        "test"
      = .error "Something." := rfl

/-- C5 (code evaluation): requesting `"dependencies"` from a project table
without that key raises a message containing the un-interpolated placeholder
text `\x7bdep_table\x7d` (the source string is missing its `f` marker), so the
message does not name the missing sub-table. -/
theorem missing_dependencies_message_eval :
    load_dependencies [("name", Value.vstr "pkg")] "dependencies"
      = .error
        "pyproject.toml\x27s project table does not include \x7bdep_table\x7d sub-table." :=
  rfl

/-- C7: the write operation is idempotent — running it a second time with
identical arguments leaves the files exactly as after the first run
(the second call overwrites each written file with identical content) and
returns the same result. -/
theorem write_group_idempotent (deps : List (String × Value)) (outp : String)
    (vb : Bool) (st : WriteState) :
    (write_dependencies deps outp vb
        (write_dependencies deps outp vb st).1).1.files
      = (write_dependencies deps outp vb st).1.files ∧
    (write_dependencies deps outp vb
        (write_dependencies deps outp vb st).1).2
      = (write_dependencies deps outp vb st).2 := by
  cases deps with
  | nil =>
    simp only [write_dependencies_nil]
    exact ⟨trivial, trivial⟩
  | cons hd tl =>
    obtain ⟨g, v⟩ := hd
    simp only [write_dependencies_cons]
    exact ⟨setFile_idem _ _ _, trivial⟩

/-- C9: for a non-empty dependency dictionary, only the first group (in
insertion order) is written and returned; any further groups are silently
ignored — the whole call result is identical to a call with the first group
alone, it performs exactly one file write, and no error is raised. -/
theorem write_first_group_only (g : String) (v : Value)
    (rest : List (String × Value)) (outp : String) (vb : Bool)
    (st : WriteState) :
    (write_dependencies ((g, v) :: rest) outp vb st).2 = .ok ⟨g, v⟩ ∧
    (write_dependencies ((g, v) :: rest) outp vb st).1.files
      = setFile st.files (filePath outp g) ⟨g, v⟩ ∧
    write_dependencies ((g, v) :: rest) outp vb st
      = write_dependencies [(g, v)] outp vb st := by
  rw [write_dependencies_cons, write_dependencies_cons]
  exact ⟨rfl, rfl, rfl⟩

/-- C10: called with an empty dependency dictionary and an output directory
that does not yet exist, the writer creates the directory first and only then
raises the empty-dictionary error, so the directory-creation side effect
survives the failed call. -/
theorem makedirs_before_empty_check (outp : String) (vb : Bool)
    (st : WriteState) (h : st.dirs.contains (normPath outp) = false) :
    (write_dependencies [] outp vb st).1.dirs = normPath outp :: st.dirs ∧
    (write_dependencies [] outp vb st).2
      = .error "Empty dependency dictionary found." := by
  rw [write_dependencies_nil]
  have hm : ¬ normPath outp ∈ st.dirs := by simpa using h
  exact ⟨by simp [hm], rfl⟩

/-- Witness for C10 at a concrete input: an empty state does not contain the
directory `out/`, and the failing call still registers it. -/
theorem makedirs_before_empty_check_witness :
    (([] : List String).contains (normPath "out") = false) ∧
    (write_dependencies [] "out" false ⟨[], [], []⟩).1.dirs
      = [normPath "out"] ∧
    (write_dependencies [] "out" false ⟨[], [], []⟩).2
      = .error "Empty dependency dictionary found." :=
  ⟨rfl, (makedirs_before_empty_check "out" false ⟨[], [], []⟩ rfl).1,
    (makedirs_before_empty_check "out" false ⟨[], [], []⟩ rfl).2⟩

/-- C1 counterexample: the claim quantifies over every entry `g` of
`optional-dependencies`, but for the entry named `"dependencies"` the
selector is treated as the required-list sentinel, so on a well-formed
project table whose `optional-dependencies` maps `"dependencies"` to
`["extra"]` (and which has no required list) extraction raises instead of
returning `["extra"]`. -/
theorem extract_group_sentinel_counterexample :
    lookupStr [("dependencies", Value.vstrs ["extra"])] "dependencies"
      = some (Value.vstrs ["extra"]) ∧
    load_dependencies
        [("optional-dependencies",
          Value.vtable [("dependencies", Value.vstrs ["extra"])])]
        "dependencies"
      = .error
        "pyproject.toml\x27s project table does not include \x7bdep_table\x7d sub-table." ∧
    ∀ v : Value,
      load_dependencies
          [("optional-dependencies",
            Value.vtable [("dependencies", Value.vstrs ["extra"])])]
          "dependencies" ≠ .ok v := by
  refine ⟨rfl, rfl, fun v h => ?_⟩
  have heval : load_dependencies
      [("optional-dependencies",
        Value.vtable [("dependencies", Value.vstrs ["extra"])])]
      "dependencies"
      = Except.error
        "pyproject.toml\x27s project table does not include \x7bdep_table\x7d sub-table." :=
    rfl
  rw [heval] at h
  exact Except.noConfusion h

/-- C1 (amended): extraction returns the stored list exactly as it appears.
If the project table maps `dependencies` to list `L`, the `"dependencies"`
selector returns `L` unchanged; and for any selector `g` OTHER THAN the
sentinel `"dependencies"`, if `optional-dependencies` maps `g` to `L`, the
selector `g` returns `L` unchanged. -/
theorem extract_group_returns_stored_list (project sub : Dict)
    (L : List String) (g : String) :
    (lookupStr project "dependencies" = some (Value.vstrs L) →
      load_dependencies project "dependencies" = .ok (Value.vstrs L)) ∧
    (g ≠ "dependencies" →
      lookupStr project "optional-dependencies" = some (Value.vtable sub) →
      lookupStr sub g = some (Value.vstrs L) →
      load_dependencies project g = .ok (Value.vstrs L)) := by
  constructor
  · exact load_dependencies_req
  · intro hg hsub hv
    exact load_dependencies_opt (beq_eq_false_iff_ne.mpr hg) hsub hv

/-- Witness for C1 at concrete manifests: the required list and an optional
group are both returned exactly as stored. -/
theorem extract_group_returns_stored_list_witness :
    load_dependencies [("dependencies", Value.vstrs ["numpy", "pandas"])]
        "dependencies" = .ok (Value.vstrs ["numpy", "pandas"]) ∧
    load_dependencies
        [("optional-dependencies",
          Value.vtable [("test", Value.vstrs ["pytest"])])]
        "test" = .ok (Value.vstrs ["pytest"]) :=
  ⟨(extract_group_returns_stored_list
      [("dependencies", Value.vstrs ["numpy", "pandas"])] [] ["numpy", "pandas"]
      "x").1 rfl,
   (extract_group_returns_stored_list
      [("optional-dependencies", Value.vtable [("test", Value.vstrs ["pytest"])])]
      [("test", Value.vstrs ["pytest"])] ["pytest"] "test").2
     (by decide) rfl rfl⟩

/-- C6: manifest verification fails when the parsed document has no
`project` key, fails when `project` is present but not a table, and
succeeds (returning the project table, raising nothing) when `project` is a
table. -/
theorem load_manifest_schema_validation (toml_dict : Dict) :
    (lookupStr toml_dict "project" = none →
      ∃ e, verifyProject toml_dict = .error e) ∧
    (∀ v, lookupStr toml_dict "project" = some v →
      (∀ t, v ≠ Value.vtable t) →
      ∃ e, verifyProject toml_dict = .error e) ∧
    (∀ t, lookupStr toml_dict "project" = some (Value.vtable t) →
      verifyProject toml_dict = .ok t) := by
  refine ⟨?_, ?_, ?_⟩
  · intro h
    exact ⟨_, by unfold verifyProject; rw [h]⟩
  · intro v h hnt
    unfold verifyProject
    rw [h]
    cases v with
    | vtable t => exact absurd rfl (hnt t)
    | vstr s => exact ⟨_, rfl⟩
    | vstrs l => exact ⟨_, rfl⟩
  · intro t h
    unfold verifyProject
    rw [h]

/-- Witness for C6 at concrete documents: a document without `project`, one
whose `project` is a string, and one whose `project` is a table. -/
theorem load_manifest_schema_validation_witness :
    (∃ e, verifyProject [] = .error e) ∧
    (∃ e, verifyProject [("project", Value.vstr "x")] = .error e) ∧
    verifyProject [("project", Value.vtable [("dependencies", Value.vstrs ["numpy"])])]
      = .ok [("dependencies", Value.vstrs ["numpy"])] :=
  ⟨(load_manifest_schema_validation []).1 rfl,
   (load_manifest_schema_validation [("project", Value.vstr "x")]).2.1
     (Value.vstr "x") rfl (fun _ h => Value.noConfusion h),
   (load_manifest_schema_validation
      [("project", Value.vtable [("dependencies", Value.vstrs ["numpy"])])]).2.2
     _ rfl⟩

lemma writeOptionals_output (project : Dict) (keys : List String)
    (outp : String) (st : WriteState) :
    (writeOptionals project keys outp st).1.output = st.output := by
  induction keys generalizing st with
  | nil => rfl
  | cons k rest ih =>
    unfold writeOptionals
    cases hl : load_dependencies project k with
    | error e => rfl
    | ok deps =>
      simp only [hl, write_dependencies_cons]
      rw [ih]
      simp

lemma normPath_idem (p : String) : normPath (normPath p) = normPath p := by
  unfold normPath
  by_cases h : endsWithSep p = true
  · rw [if_pos h, if_pos h]
  · rw [if_neg h]
    have hsep : endsWithSep (p ++ "/") = true := by
      unfold endsWithSep
      rw [String.data_append]
      have hlast : (p.data ++ "/".data).getLast? = some '/' := by
        rw [show "/".data = ['/'] from rfl]
        exact List.getLast?_concat _
      rw [hlast]
      rfl
    rw [if_pos hsep]

lemma filePath_norm (p g : String) : filePath (normPath p) g = filePath p g := by
  unfold filePath
  rw [normPath_idem]

/-- C8: in `"all"` mode the verbose flag reaches only the write of the
required `"dependencies"` group.  With verbosity enabled, the console output
of a whole run consists of at most the one status line for the required
group — optional-group writes never print, because the loop calls the writer
with verbosity left at its disabled default. -/
theorem optional_writes_not_verbose (toml_dict project : Dict)
    (outp : String) (st : WriteState)
    (hproj : lookupStr toml_dict "project" = some (Value.vtable project)) :
    (pyproject_toml_to_environment_file toml_dict outp "all" true st).1.output
      = st.output ++
        (match lookupStr project "dependencies" with
         | some v => [(filePath outp "dependencies", ⟨"dependencies", v⟩)]
         | none => []) := by
  unfold pyproject_toml_to_environment_file
  rw [verifyProject_ok hproj]
  cases hdep : lookupStr project "dependencies" with
  | some v =>
    cases hopt : lookupStr project "optional-dependencies" with
    | none =>
      simp [hdep, hopt, load_dependencies_req hdep, write_dependencies_cons,
        filePath_norm]
    | some w =>
      cases w with
      | vtable sub =>
        simp [hdep, hopt, load_dependencies_req hdep, write_dependencies_cons,
          filePath_norm, writeOptionals_output]
      | vstr s =>
        simp [hdep, hopt, load_dependencies_req hdep, write_dependencies_cons,
          filePath_norm]
      | vstrs l =>
        simp [hdep, hopt, load_dependencies_req hdep, write_dependencies_cons,
          filePath_norm]
  | none =>
    cases hopt : lookupStr project "optional-dependencies" with
    | none => simp [hdep, hopt]
    | some w =>
      cases w with
      | vtable sub => simp [hdep, hopt, writeOptionals_output]
      | vstr s => simp [hdep, hopt]
      | vstrs l => simp [hdep, hopt]

/-- Witness for C8 at a concrete manifest with a required list and one
optional group: the verbose run prints exactly the one required-group status
line. -/
theorem optional_writes_not_verbose_witness :
    (pyproject_toml_to_environment_file
        [("project", Value.vtable
          [("dependencies", Value.vstrs ["numpy"]),
           ("optional-dependencies", Value.vtable [("test", Value.vstrs ["pytest"])])])]
        "." "all" true ⟨[], [], []⟩).1.output
      = [(filePath "." "dependencies", ⟨"dependencies", Value.vstrs ["numpy"]⟩)] :=
  optional_writes_not_verbose _
    [("dependencies", Value.vstrs ["numpy"]),
     ("optional-dependencies", Value.vtable [("test", Value.vstrs ["pytest"])])]
    "." ⟨[], [], []⟩ rfl

lemma setFile_of_none {files : List (String × DepYaml)} {p : String}
    (r : DepYaml) (h : lookupStr files p = none) :
    setFile files p r = files ++ [(p, r)] := by
  unfold setFile
  rw [h]
  rfl

lemma lookupStr_of_mem_nodup {α : Type} {l : List (String × α)}
    (hnd : (l.map Prod.fst).Nodup) {e : String × α} (he : e ∈ l) :
    lookupStr l e.fst = some e.snd := by
  induction l with
  | nil => cases he
  | cons hd tl ih =>
    obtain ⟨a, b⟩ := hd
    rw [List.map_cons, List.nodup_cons] at hnd
    cases List.mem_cons.mp he with
    | inl heq =>
      subst heq
      simp [lookupStr]
    | inr htl =>
      have ha : (a == e.fst) = false := by
        refine beq_eq_false_iff_ne.mpr ?_
        intro hc
        apply hnd.1
        rw [hc]
        exact List.mem_map.mpr ⟨e, htl, rfl⟩
      simp only [lookupStr, ha, Bool.false_eq_true, if_false]
      exact ih hnd.2 htl

lemma writeOptionals_files (project sub : Dict) (outp : String)
    (hsub : lookupStr project "optional-dependencies"
      = some (Value.vtable sub)) :
    ∀ (pend : Dict) (st : WriteState),
    (∀ e ∈ pend, e.fst ≠ "dependencies" ∧ lookupStr sub e.fst = some e.snd) →
    (pend.map Prod.fst).Nodup →
    (∀ e ∈ pend, lookupStr st.files (filePath outp e.fst) = none) →
    (writeOptionals project (pend.map Prod.fst) (normPath outp) st).2
      = .ok () ∧
    (writeOptionals project (pend.map Prod.fst) (normPath outp) st).1.files
      = st.files ++ pend.map (fun e => (filePath outp e.fst, ⟨e.fst, e.snd⟩)) := by
  intro pend
  induction pend with
  | nil => exact fun st _ _ _ => ⟨rfl, by simp [writeOptionals]⟩
  | cons hd tl ih =>
    intro st hprop hnd hfresh
    obtain ⟨k, v⟩ := hd
    have hhead := hprop (k, v) (List.mem_cons_self _ _)
    have hload : load_dependencies project k = .ok v :=
      load_dependencies_opt (beq_eq_false_iff_ne.mpr hhead.1) hsub hhead.2
    have hsf : setFile st.files (filePath outp k) ⟨k, v⟩
        = st.files ++ [(filePath outp k, ⟨k, v⟩)] :=
      setFile_of_none _ (hfresh (k, v) (List.mem_cons_self _ _))
    rw [List.map_cons]
    unfold writeOptionals
    simp only [hload, write_dependencies_cons, filePath_norm, hsf,
      Bool.false_eq_true, if_false]
    rw [List.map_cons, List.nodup_cons] at hnd
    have hrest := ih { st with
        dirs := if st.dirs.contains (normPath (normPath outp)) then st.dirs
          else normPath (normPath outp) :: st.dirs,
        files := st.files ++ [(filePath outp k, ⟨k, v⟩)],
        output := st.output }
      (fun e he => hprop e (List.mem_cons_of_mem _ he))
      hnd.2
      (fun e he => by
        have hne : (filePath outp k == filePath outp e.fst) = false := by
          refine beq_eq_false_iff_ne.mpr ?_
          intro hc
          apply hnd.1
          rw [filePath_inj hc]
          exact List.mem_map.mpr ⟨e, he, rfl⟩
        show lookupStr (st.files ++ [(filePath outp k, ⟨k, v⟩)])
            (filePath outp e.fst) = none
        rw [lookupStr_append_of_none _ (hfresh e (List.mem_cons_of_mem _ he))]
        simp [lookupStr, hne])
    refine ⟨hrest.1.trans rfl, ?_⟩
    rw [hrest.2]
    simp [List.append_assoc]


/-- C2 counterexample: the claim quantifies over every well-formed manifest,
but when the `optional-dependencies` sub-table contains a group literally
named `"dependencies"` (and no required list exists), the loop reloads it
through the required-list sentinel, the run aborts with a SchemaError, and
NO file is written — not the one file with that group content the claim
describes. -/
theorem all_mode_optional_named_dependencies_counterexample :
    (pyproject_toml_to_environment_file
        [("project", Value.vtable
          [("optional-dependencies",
            Value.vtable [("dependencies", Value.vstrs ["b"])])])]
        "." "all" true ⟨[], [], []⟩).1.files = ([] : List (String × DepYaml)) ∧
    (pyproject_toml_to_environment_file
        [("project", Value.vtable
          [("optional-dependencies",
            Value.vtable [("dependencies", Value.vstrs ["b"])])])]
        "." "all" true ⟨[], [], []⟩).2
      = .error
        "pyproject.toml\x27s project table does not include \x7bdep_table\x7d sub-table." :=
  ⟨rfl, rfl⟩

/-- C2 (amended): on a well-formed manifest whose `optional-dependencies`
sub-table (when present) has distinct keys NONE OF WHICH is the sentinel name
`"dependencies"`, an `"all"`-mode run into a fresh output directory succeeds
and the files on disk afterwards are exactly one per group present — the
required list (when it exists) under the name `dependencies`, then each
optional group in stored order, each file holding the record of its own
group.  Groups absent from the manifest produce no file. -/
theorem all_mode_writes_one_file_per_group (toml_dict project : Dict)
    (outp : String) (vb : Bool) (st : WriteState)
    (hproj : lookupStr toml_dict "project" = some (Value.vtable project))
    (hstart : st.files = [])
    (hopt : ∀ w, lookupStr project "optional-dependencies" = some w →
      ∃ sub, w = Value.vtable sub ∧ (sub.map Prod.fst).Nodup ∧
        "dependencies" ∉ sub.map Prod.fst) :
    (pyproject_toml_to_environment_file toml_dict outp "all" vb st).2
      = .ok () ∧
    (pyproject_toml_to_environment_file toml_dict outp "all" vb st).1.files
      = specAllFiles project outp := by
  unfold pyproject_toml_to_environment_file specAllFiles
  rw [verifyProject_ok hproj]
  cases hdep : lookupStr project "dependencies" with
  | some v =>
    have hsf : setFile st.files (filePath outp "dependencies")
        ⟨"dependencies", v⟩
        = [(filePath outp "dependencies", ⟨"dependencies", v⟩)] := by
      rw [hstart]
      exact setFile_of_none _ rfl
    cases hopt2 : lookupStr project "optional-dependencies" with
    | none =>
      simp [hdep, hopt2, load_dependencies_req hdep, write_dependencies_cons,
        filePath_norm, hsf]
    | some w =>
      obtain ⟨sub, hw, hnd, hnotdep⟩ := hopt w hopt2
      subst hw
      have hprop : ∀ e ∈ sub, e.fst ≠ "dependencies" ∧
          lookupStr sub e.fst = some e.snd := fun e he =>
        ⟨fun hc => hnotdep (by rw [← hc]; exact List.mem_map.mpr ⟨e, he, rfl⟩),
         lookupStr_of_mem_nodup hnd he⟩
      have hwo := writeOptionals_files project sub outp hopt2 sub
        { dirs := if st.dirs.contains (normPath (normPath outp)) then st.dirs
            else normPath (normPath outp) :: st.dirs,
          files := [(filePath outp "dependencies", ⟨"dependencies", v⟩)],
          output := if vb then
              st.output ++ [(filePath outp "dependencies", ⟨"dependencies", v⟩)]
            else st.output }
        hprop hnd
        (fun e he => by
          have hne : (filePath outp "dependencies" == filePath outp e.fst)
              = false := by
            refine beq_eq_false_iff_ne.mpr ?_
            intro hc
            exact absurd (filePath_inj hc).symm (hprop e he).1
          show lookupStr
              [(filePath outp "dependencies",
                (⟨"dependencies", v⟩ : DepYaml))]
              (filePath outp e.fst) = none
          simp [lookupStr, hne])
      simp only [hdep, hopt2, load_dependencies_req hdep,
        write_dependencies_cons, filePath_norm, hsf, Option.isSome_some,
        if_true]
      exact ⟨hwo.1, hwo.2⟩
  | none =>
    cases hopt2 : lookupStr project "optional-dependencies" with
    | none => simp [hdep, hopt2, hstart]
    | some w =>
      obtain ⟨sub, hw, hnd, hnotdep⟩ := hopt w hopt2
      subst hw
      have hprop : ∀ e ∈ sub, e.fst ≠ "dependencies" ∧
          lookupStr sub e.fst = some e.snd := fun e he =>
        ⟨fun hc => hnotdep (by rw [← hc]; exact List.mem_map.mpr ⟨e, he, rfl⟩),
         lookupStr_of_mem_nodup hnd he⟩
      have hwo := writeOptionals_files project sub outp hopt2 sub st
        hprop hnd
        (fun e _ => by rw [hstart]; rfl)
      simp only [hdep, hopt2, Option.isSome_none, Bool.false_eq_true, if_false]
      exact ⟨hwo.1, hwo.2.trans (by rw [hstart])⟩

/-- Witness for C2 at a concrete manifest with a required list and two
optional groups: the run succeeds and the resulting files are exactly the
three per-group files, in order. -/
theorem all_mode_writes_one_file_per_group_witness :
    (pyproject_toml_to_environment_file
        [("project", Value.vtable
          [("dependencies", Value.vstrs ["numpy", "pandas"]),
           ("optional-dependencies", Value.vtable
             [("test", Value.vstrs ["pytest"]),
              ("docs", Value.vstrs ["sphinx"])])])]
        "." "all" true ⟨[], [], []⟩).2 = .ok () ∧
    (pyproject_toml_to_environment_file
        [("project", Value.vtable
          [("dependencies", Value.vstrs ["numpy", "pandas"]),
           ("optional-dependencies", Value.vtable
             [("test", Value.vstrs ["pytest"]),
              ("docs", Value.vstrs ["sphinx"])])])]
        "." "all" true ⟨[], [], []⟩).1.files
      = specAllFiles
          [("dependencies", Value.vstrs ["numpy", "pandas"]),
           ("optional-dependencies", Value.vtable
             [("test", Value.vstrs ["pytest"]),
              ("docs", Value.vstrs ["sphinx"])])] "." :=
  all_mode_writes_one_file_per_group _
    [("dependencies", Value.vstrs ["numpy", "pandas"]),
     ("optional-dependencies", Value.vtable
       [("test", Value.vstrs ["pytest"]),
        ("docs", Value.vstrs ["sphinx"])])]
    "." true ⟨[], [], []⟩ rfl rfl
    (fun w hw =>
      ⟨[("test", Value.vstrs ["pytest"]), ("docs", Value.vstrs ["sphinx"])],
       (Option.some_inj.mp hw).symm, by decide, by decide⟩)
